import Mathlib

/-!
Verification development for the drone-telemetry → COLMAP-prior pipeline
(`scripts/prepare_metadata.py`, `scripts/run_colmap.py`).

The Python source is shallowly embedded: Python floats are modelled as exact
rationals (`ℚ`), Python strings as `List Char`, raised exceptions as `Option`
failure (`none`), and the filesystem / subprocess environment as explicit
data passed to the functions that consult it.
-/

attribute [local semireducible] Rat.mul Rat.add Rat.inv Rat.sub Rat.ofScientific

/-! ## Python string helpers

`str.split(sep)` for a one-character separator, as used by
`focal_raw.split('/')` and `dewarp_data.split(",")` in `prepare_metadata.py`.
Like Python, splitting the empty string yields `[[]]` (one empty part). -/

def splitOnChar (sep : Char) : List Char → List (List Char)
  | [] => [[]]
  | c :: cs =>
    if c = sep then [] :: splitOnChar sep cs
    else
      match splitOnChar sep cs with
      | [] => [[c]]
      | p :: ps => (c :: p) :: ps

/-- Accumulator loop for parsing a run of decimal digits. -/
def parseDigitsAux : List Char → Nat → Option Nat
  | [], acc => some acc
  | c :: cs, acc =>
    if c.isDigit then parseDigitsAux cs (acc * 10 + (c.toNat - 48)) else none

/-- Parse a non-empty all-digit string to a natural number. -/
def parseDigits (cs : List Char) : Option Nat :=
  match cs with
  | [] => none
  | _ => parseDigitsAux cs 0

/-- Like `parseDigits` but an empty digit run counts as `0`, matching the
integer / fractional halves of a Python float literal such as `"3."`, `".5"`. -/
def parseDigits0 (cs : List Char) : Option Nat :=
  match cs with
  | [] => some 0
  | _ => parseDigitsAux cs 0

/-- The unsigned part of Python `float(s)` restricted to the plain decimal
forms the telemetry fields use (`"3700"`, `"0.123224"`, `"3."`, `".5"`);
other strings fail, as `float` raises `ValueError`. -/
def parseUnsignedFloat (cs : List Char) : Option ℚ :=
  match splitOnChar '.' cs with
  | [ip] =>
    match parseDigits ip with
    | none => none
    | some n => some ((n : ℚ))
  | [ip, fp] =>
    if ip = [] ∧ fp = [] then none
    else
      match parseDigits0 ip, parseDigits0 fp with
      | some n, some f => some ((n : ℚ) + (f : ℚ) / (10 : ℚ) ^ fp.length)
      | _, _ => none
  | _ => none

/-- Python `float(s)` on a string, with an optional leading minus sign. -/
def parsePyFloat (cs : List Char) : Option ℚ :=
  match cs with
  | [] => none
  | c :: rest =>
    if c = '-' then (parseUnsignedFloat rest).map (fun q => -q)
    else parseUnsignedFloat (c :: rest)

/-- A JSON field value as the Python code sees it: either a number
(`int`/`float`, modelled as an exact rational) or a string. -/
inductive FieldVal where
  | num (q : ℚ)
  | str (s : List Char)
deriving DecidableEq

/-- Python `float(v)`: the identity on numbers, string parsing on strings. -/
def pyFloatOf : FieldVal → Option ℚ
  | .num q => some q
  | .str s => parsePyFloat s

/-- Integer division truncating toward zero, as Python `int(float)` does. -/
def pyTrunc (q : ℚ) : ℤ := q.num / (q.den : ℤ)

/-- Python `int(s)` on a string: optional sign followed by digits. -/
def pyIntOfStr (cs : List Char) : Option ℤ :=
  match cs with
  | [] => none
  | c :: rest =>
    if c = '-' then
      match parseDigits rest with
      | none => none
      | some n => some (-(n : ℤ))
    else
      match parseDigits (c :: rest) with
      | none => none
      | some n => some ((n : ℤ))

/-- Python `int(v)` on a JSON field value. -/
def pyInt : FieldVal → Option ℤ
  | .num q => some (pyTrunc q)
  | .str s => pyIntOfStr s

/-- The numeric-parsing rule of `prepare_metadata.py` lines 26–30: a string
containing `/` is split on `/`, both halves parsed as floats and divided
(`ZeroDivisionError` and a wrong number of parts fail); any other value goes
through `float` directly. -/
def parseNumericField (v : FieldVal) : Option ℚ :=
  match v with
  | .num q => some q
  | .str s =>
    if s.contains '/' then
      match splitOnChar '/' s with
      | [a, b] =>
        match parsePyFloat a, parsePyFloat b with
        | some n, some d => if d = 0 then none else some (n / d)
        | _, _ => none
      | _ => none
    else parsePyFloat s

/-! ## Glob matching

`glob.glob(os.path.join(images_path, "*.JP*G"))` in `extract_metadata`.
`globMatch` is the literal (case-sensitive) `fnmatch` semantics of a pattern
built from literal characters and `*`; `glob` additionally never matches a
name whose first character is `.`. -/

/-- All suffixes of a string, longest first (the string itself down to `[]`). -/
def suffixes : List Char → List (List Char)
  | [] => [[]]
  | c :: cs => (c :: cs) :: suffixes cs

def globMatch : List Char → List Char → Bool
  | [], cs => cs.isEmpty
  | p :: ps, cs =>
    if p = '*' then (suffixes cs).any (fun v => globMatch ps v)
    else
      match cs with
      | [] => false
      | c :: cs' => p == c && globMatch ps cs'

/-- The image-discovery pattern of `extract_metadata`. -/
def jpgPattern : List Char := "*.JP*G".toList

/-- Whether `glob.glob("*.JP*G")` lists a file of this name. -/
def matchesImageGlob (name : List Char) : Bool :=
  match name with
  | '.' :: _ => false
  | _ => globMatch jpgPattern name

/-! ## Telemetry data model

The JSON sidecar fields consulted by `prepare_metadata.py`, each optional
(`dict.get` with a default).  `DewarpData` is kept as a string, the only form
the code can process (`dewarp_data.split(",")`). -/

structure OrientationNED where
  Yaw : Option FieldVal
  Pitch : Option FieldVal
  Roll : Option FieldVal
deriving DecidableEq

structure OpticalCenter where
  X : Option FieldVal
  Y : Option FieldVal
deriving DecidableEq

structure SidecarDoc where
  PixelXDimension : Option FieldVal
  PixelYDimension : Option FieldVal
  FocalLength : Option FieldVal
  CalibratedOpticalCenter : Option OpticalCenter
  DewarpData : Option (List Char)
  Latitude : Option FieldVal
  Longitude : Option FieldVal
  AbsoluteAltitude : Option FieldVal
  CameraOrientationNED : Option OrientationNED
deriving DecidableEq

/-- A file in the images directory: an image, a JSON sidecar that parses to a
document, or a file whose content `json.load` would reject. -/
inductive FileContent where
  | image
  | json (doc : SidecarDoc)
  | malformed
deriving DecidableEq

structure FileEntry where
  name : List Char
  content : FileContent
deriving DecidableEq

/-- The images directory, in filesystem enumeration order. -/
abbrev Dir := List FileEntry

/-- Contents of the file at `path`, `none` when no such file exists
(`os.path.exists` is `isSome` of this). -/
def findFile (d : Dir) (path : List Char) : Option FileContent :=
  (d.find? (fun f => f.name == path)).map (·.content)

/-- Python `img_path.rsplit('.', 1)[0]`: everything before the last dot
(the whole name when there is no dot). -/
def stemOf (cs : List Char) : List Char :=
  match (cs.reverse).dropWhile (fun c => c ≠ '.') with
  | [] => cs
  | _ :: rest => rest.reverse

/-- The sidecar path probed for an image: `img_path.rsplit('.', 1)[0] + ".JSON"`. -/
def sidecarName (img : List Char) : List Char := stemOf img ++ ".JSON".toList

/-- The image files listed by `glob.glob(os.path.join(images_path, "*.JP*G"))`,
in directory order. -/
def discoveredImages (d : Dir) : List (List Char) :=
  (d.map (·.name)).filter matchesImageGlob

/-- First pass of `extract_metadata` (lines 12–17): walk the discovered images
and load the sidecar of the first one whose sidecar file exists.  Outer `none`
models a crash (`json.load` on a malformed file); `some none` means no image
has a sidecar, `some (some doc)` is the loaded sample. -/
def firstSampleLoop (d : Dir) : List (List Char) → Option (Option SidecarDoc)
  | [] => some none
  | img :: rest =>
    match findFile d (sidecarName img) with
    | none => firstSampleLoop d rest
    | some (.json doc) => some (some doc)
    | some _ => none

def firstSample (d : Dir) : Option (Option SidecarDoc) :=
  firstSampleLoop d (discoveredImages d)

/-- The single shared camera, `cameras_text` data line fields
(`1 SIMPLE_RADIAL width height focal cx cy k1`). -/
structure CameraParams where
  width : ℤ
  height : ℤ
  focal : ℚ
  cx : ℚ
  cy : ℚ
  k1 : ℚ
deriving DecidableEq

/-- One entry of the `image_metadata` list built by `extract_metadata`. -/
structure TelemetryRecord where
  image_name : List Char
  latitude : ℚ
  longitude : ℚ
  altitude : ℚ
  yaw : ℚ
  pitch : ℚ
  roll : ℚ
  focal_length : ℚ
deriving DecidableEq

/-- Default `FocalLength` used by `dict.get`: the string `"3700/1000"`. -/
def slashDefault : List Char := "3700/1000".toList

/-- Default `DewarpData` used by `dict.get`: the string `"0.123224,0,0"`. -/
def defaultDewarp : List Char := "0.123224,0,0".toList

/-- Lines 20–43 of `prepare_metadata.py`: derive the shared camera parameters
from the sample sidecar, or the hard-coded defaults when no sample was found.
`none` models a `ValueError`/`ZeroDivisionError` crash. -/
def resolveCamera (sample : Option SidecarDoc) : Option CameraParams :=
  match sample with
  | some s =>
    match pyInt (s.PixelXDimension.getD (.num 4056)) with
    | none => none
    | some width =>
      match pyInt (s.PixelYDimension.getD (.num 3040)) with
      | none => none
      | some height =>
        match parseNumericField (s.FocalLength.getD (.str slashDefault)) with
        | none => none
        | some focal =>
          match pyFloatOf ((s.CalibratedOpticalCenter.getD ⟨none, none⟩).X.getD
              (.num ((width : ℚ) / 2))) with
          | none => none
          | some cx =>
            match pyFloatOf ((s.CalibratedOpticalCenter.getD ⟨none, none⟩).Y.getD
                (.num ((height : ℚ) / 2))) with
            | none => none
            | some cy =>
              match parsePyFloat ((splitOnChar ',' (s.DewarpData.getD defaultDewarp)).headD []) with
              | none => none
              | some k1 => some ⟨width, height, focal, cx, cy, k1⟩
  | none =>
    some ⟨4056, 3040, 3700, 2022872267 / 1000000, 1512190903 / 1000000,
      123224 / 1000000⟩

/-- Lines 54–83: build one telemetry record from an image's own sidecar
`doc`; note the code reads `FocalLength` from `sample`, the first-discovered
sidecar, not from `doc`. -/
def extractRecord (sample : SidecarDoc) (imgName : List Char)
    (doc : SidecarDoc) : Option TelemetryRecord :=
  match pyFloatOf (doc.Latitude.getD (.num 0)) with
  | none => none
  | some lat =>
    match pyFloatOf (doc.Longitude.getD (.num 0)) with
    | none => none
    | some lon =>
      match pyFloatOf (doc.AbsoluteAltitude.getD (.num 0)) with
      | none => none
      | some alt =>
        match pyFloatOf ((doc.CameraOrientationNED.getD ⟨none, none, none⟩).Yaw.getD (.num 0)) with
        | none => none
        | some yaw =>
          match pyFloatOf ((doc.CameraOrientationNED.getD ⟨none, none, none⟩).Pitch.getD (.num 0)) with
          | none => none
          | some pitch =>
            match pyFloatOf ((doc.CameraOrientationNED.getD ⟨none, none, none⟩).Roll.getD (.num 0)) with
            | none => none
            | some roll =>
              match parseNumericField (sample.FocalLength.getD (.str slashDefault)) with
              | none => none
              | some focal => some ⟨imgName, lat, lon, alt, yaw, pitch, roll, focal⟩

/-- Second pass of `extract_metadata` (lines 49–83): images without a sidecar
are skipped; a sidecar that exists but does not parse crashes, as does
reaching the body with `sample_image = None` (`AttributeError`). -/
def extractLoop (d : Dir) (sample : Option SidecarDoc) :
    List (List Char) → Option (List TelemetryRecord)
  | [] => some []
  | img :: rest =>
    match findFile d (sidecarName img) with
    | none => extractLoop d sample rest
    | some (.json doc) =>
      match sample with
      | none => none
      | some s =>
        match extractRecord s img doc with
        | none => none
        | some r =>
          match extractLoop d sample rest with
          | none => none
          | some rs => some (r :: rs)
    | some _ => none

/-- `extract_metadata(images_path)`: the shared camera (the `cameras_text`
global) together with the returned `image_metadata` list. -/
def extract_metadata (d : Dir) : Option (CameraParams × List TelemetryRecord) :=
  match firstSample d with
  | none => none
  | some sample =>
    match resolveCamera sample with
    | none => none
    | some cam =>
      match extractLoop d sample (discoveredImages d) with
      | none => none
      | some md => some (cam, md)

/-- Number of discovered images whose sidecar file exists. -/
def validSidecarCount (d : Dir) : Nat :=
  (discoveredImages d).countP (fun img => (findFile d (sidecarName img)).isSome)

/-! ## Prior Writer (`write_colmap_format`)

The two text files are modelled line by line; a data line keeps its fields
structured (the serialized line is the space-separated rendering of the
fields in declaration order). -/

/-- One pose line of `images.txt`:
`IMAGE_ID QW QX QY QZ TX TY TZ CAMERA_ID NAME`. -/
structure PoseLine where
  image_id : ℕ
  qw : ℚ
  qx : ℚ
  qy : ℚ
  qz : ℚ
  tx : ℚ
  ty : ℚ
  tz : ℚ
  camera_id : ℕ
  name : List Char
deriving DecidableEq

/-- A line of one of the produced text files. -/
inductive OutLine where
  | comment (s : String)
  | cameraData (c : CameraParams)
  | pose (p : PoseLine)
  | blank
deriving DecidableEq

/-- The pose written for the record at 0-based index `idx`
(lines 104–117): identity quaternion, flat-Earth translation, camera 1. -/
def poseOf (idx : ℕ) (r : TelemetryRecord) : PoseLine :=
  { image_id := idx + 1
    qw := 1, qx := 0, qy := 0, qz := 0
    tx := r.longitude * 111000
    ty := r.latitude * 111000
    tz := r.altitude
    camera_id := 1
    name := r.image_name }

/-- The per-image line pairs of `images.txt`, starting at 0-based index `idx`
(`for idx, data in enumerate(metadata)`). -/
def imageLines (idx : ℕ) : List TelemetryRecord → List OutLine
  | [] => []
  | r :: rs => .pose (poseOf idx r) :: .blank :: imageLines (idx + 1) rs

/-- `cameras.txt` as written by `write_colmap_format`. -/
def write_colmap_format_cameras (cam : CameraParams) : List OutLine :=
  [ .comment "# Camera list with one line of data per camera:"
  , .comment "#   CAMERA_ID, MODEL, WIDTH, HEIGHT, PARAMS[]"
  , .comment "# Number of cameras: 1"
  , .cameraData cam ]

/-- `images.txt` as written by `write_colmap_format`. -/
def write_colmap_format_images (md : List TelemetryRecord) : List OutLine :=
  [ .comment "# Image list with two lines of data per image:"
  , .comment "#   IMAGE_ID, QW, QX, QY, QZ, TX, TY, TZ, CAMERA_ID, NAME"
  , .comment "#   POINTS2D[] as (X, Y, POINT3D_ID)" ]
  ++ imageLines 0 md

def isCameraData : OutLine → Bool
  | .cameraData _ => true
  | _ => false

def getPoseLine : OutLine → Option PoseLine
  | .pose p => some p
  | _ => none

/-- The pose lines of a produced file, in order. -/
def poseLinesOf (ls : List OutLine) : List PoseLine := ls.filterMap getPoseLine

/-- The `IMAGE_ID` column of a produced image list. -/
def imagePoseIds (ls : List OutLine) : List ℕ :=
  (poseLinesOf ls).map PoseLine.image_id

/-- Claim-side checker (§4.4 of the spec): the data portion of `images.txt`
is a sequence of pose/blank pairs, each pose carrying the identity rotation
quaternion `1 0 0 0` and `camera_id = 1`. -/
def posePairsOK : List OutLine → Bool
  | [] => true
  | .pose p :: .blank :: rest =>
    decide (p.qw = 1 ∧ p.qx = 0 ∧ p.qy = 0 ∧ p.qz = 0 ∧ p.camera_id = 1)
      && posePairsOK rest
  | _ => false

/-- Claim-side (C3): the WIDTH the camera line should carry, per the spec —
the first-discovered record's value, defaulting to 4056. -/
def claimedWidth (sample : Option SidecarDoc) : Option ℤ :=
  match sample with
  | none => some 4056
  | some s =>
    match s.PixelXDimension with
    | none => some 4056
    | some v => pyInt v

/-- Claim-side (C3): the HEIGHT the camera line should carry, defaulting
to 3040. -/
def claimedHeight (sample : Option SidecarDoc) : Option ℤ :=
  match sample with
  | none => some 3040
  | some s =>
    match s.PixelYDimension with
    | none => some 3040
    | some v => pyInt v

/-! ## Pipeline Sequencer (`run_colmap.py`)

`main()` is embedded as a function of its argparse arguments and an
environment giving `os.path.exists` and each subprocess's exit code.  Its
observable behaviour is the ordered list of side effects plus the final
error, if any (`raise SystemExit`, modelled as the error value). -/

structure PipelineArgs where
  images : String
  output : String
  use_gpu : Bool
  use_metadata : Bool

structure PipelineEnv where
  imagesDir : Dir
  pathExists : String → Bool
  exitCode : List String → Int

/-- `os.path.join` (separator choice is irrelevant to the claims). -/
def pjoin (a b : String) : String := a ++ "/" ++ b

/-- The hard-coded COLMAP executable path (line 44). -/
def colmap_path : String :=
  "C:/Users/upadh/OneDrive/Desktop/Repos/temp/vcpkg/installed/x64-windows/tools/colmap/colmap.exe"

/-- The hard-coded OpenSplat executable path (line 114). -/
def opensplat_exe : String :=
  "C:/Users/upadh/OneDrive/Desktop/Repos/OpenSplat/build/Release/opensplat.exe"

/-- The `feature_extractor` command line (lines 49–63). -/
def feature_cmd (args : PipelineArgs) : List String :=
  [ colmap_path, "feature_extractor"
  , "--database_path", pjoin args.output "database.db"
  , "--image_path", args.images
  , "--ImageReader.single_camera", "1"
  , "--ImageReader.camera_model", "SIMPLE_RADIAL"
  , "--SiftExtraction.max_image_size", "3000"
  , "--SiftExtraction.edge_threshold", "10"
  , "--SiftExtraction.peak_threshold", "0.01"
  , "--SiftExtraction.max_num_features", "8000" ]
  ++ (if args.use_gpu then ["--SiftExtraction.use_gpu", "1"]
      else ["--SiftExtraction.use_gpu", "0"])

/-- The `exhaustive_matcher` command line (lines 67–75). -/
def match_cmd (args : PipelineArgs) : List String :=
  [ colmap_path, "exhaustive_matcher"
  , "--database_path", pjoin args.output "database.db"
  , "--SiftMatching.guided_matching", "1"
  , "--SiftMatching.max_num_matches", "32000" ]
  ++ (if args.use_gpu then ["--SiftMatching.use_gpu", "1"] else [])

/-- The `mapper` command line (lines 82–99), with the prior-seeding flags
added when metadata was requested and `sparse_init` exists. -/
def mapper_cmd (args : PipelineArgs) (env : PipelineEnv) : List String :=
  [ colmap_path, "mapper"
  , "--database_path", pjoin args.output "database.db"
  , "--image_path", args.images
  , "--output_path", pjoin args.output "sparse" ]
  ++ (if args.use_metadata ∧ env.pathExists (pjoin args.output "sparse_init") then
        [ "--Mapper.init_min_tri_angle", "4"
        , "--Mapper.multiple_models", "0"
        , "--Mapper.extract_colors", "1"
        , "--Mapper.ba_refine_focal_length", "1"
        , "--Mapper.ba_refine_extra_params", "1"
        , "--Mapper.init_existing_model", "1"
        , "--input_path", pjoin args.output "sparse_init" ]
      else [])

/-- The OpenSplat command line (lines 118–122). -/
def opensplat_cmd (args : PipelineArgs) : List String :=
  [ opensplat_exe, args.output, "-n", "4000" ]

/-- An observable side effect of `main()`. -/
inductive Effect where
  | writePriorFiles (dir : String)
  | makeDir (p : String)
  | runStage (cmd : List String)
  | copyImages (src dst : String)
  | note (msg : String)
deriving DecidableEq

/-- A fatal error of `main()` (`raise SystemExit` / an uncaught exception). -/
inductive PipelineError where
  | metadataCrash
  | missingExecutable (msg : String)
  | stageFailed (cmd : List String) (code : Int)
deriving DecidableEq

/-- Lines 29–37: the optional metadata-prior step before anything else. -/
def metadata_step (args : PipelineArgs) (env : PipelineEnv) :
    List Effect × Option PipelineError :=
  if args.use_metadata then
    match extract_metadata env.imagesDir with
    | none => ([], some .metadataCrash)
    | some (_, md) =>
      (if md.isEmpty then [] else [.writePriorFiles (pjoin args.output "sparse_init")],
       none)
  else ([], none)

/-- `main()` of `run_colmap.py`: effect trace and final error. -/
def run_colmap_main (args : PipelineArgs) (env : PipelineEnv) :
    List Effect × Option PipelineError :=
  match metadata_step args env with
  | (eff, some e) => (eff, some e)
  | (eff0, none) =>
    let eff1 := eff0 ++ [.makeDir args.output]
    if env.pathExists colmap_path = false then
      (eff1, some (.missingExecutable
        "Could not find COLMAP executable. Please make sure COLMAP is installed correctly."))
    else
      let fc := feature_cmd args
      let eff2 := eff1 ++ [.runStage fc]
      if env.exitCode fc ≠ 0 then (eff2, some (.stageFailed fc (env.exitCode fc)))
      else
        let mc := match_cmd args
        let eff3 := eff2 ++ [.runStage mc]
        if env.exitCode mc ≠ 0 then (eff3, some (.stageFailed mc (env.exitCode mc)))
        else
          let eff4 := eff3 ++ [.makeDir (pjoin args.output "sparse")]
          let mpc := mapper_cmd args env
          let eff5 := eff4 ++ [.runStage mpc]
          if env.exitCode mpc ≠ 0 then
            (eff5, some (.stageFailed mpc (env.exitCode mpc)))
          else
            let dest := pjoin args.output "images"
            let eff6 := eff5 ++
              (if env.pathExists dest then
                [.note "Images folder already exists in output (skipped copying)."]
               else [.copyImages args.images dest])
            if env.pathExists opensplat_exe then
              let oc := opensplat_cmd args
              let eff7 := eff6 ++ [.runStage oc]
              if env.exitCode oc ≠ 0 then
                (eff7, some (.stageFailed oc (env.exitCode oc)))
              else (eff7, none)
            else (eff6 ++ [.note "OpenSplat not found"], none)

/-- The external-tool invocations contained in an effect trace, in order. -/
def stagesOf (effs : List Effect) : List (List String) :=
  effs.filterMap (fun e => match e with | .runStage c => some c | _ => none)

/-- The three required reconstruction-engine stages, in pipeline order. -/
def requiredStageCmd (args : PipelineArgs) (env : PipelineEnv) (k : Fin 3) : List String :=
  if k.val = 0 then feature_cmd args
  else if k.val = 1 then match_cmd args
  else mapper_cmd args env

/-! ## Concrete inputs for the witnesses and counterexamples -/

/-- A sidecar that parses as JSON but carries none of the consulted fields. -/
def emptySidecar : SidecarDoc := ⟨none, none, none, none, none, none, none, none, none⟩

/-- The hard-coded camera emitted when no telemetry is found (lines 39–43). -/
def fallbackCamera : CameraParams :=
  ⟨4056, 3040, 3700, 2022872267 / 1000000, 1512190903 / 1000000, 123224 / 1000000⟩

/-- The camera derived from a present-but-empty first sidecar (all defaults). -/
def sampleDefaultCamera : CameraParams :=
  ⟨4056, 3040, 37 / 10, 2028, 1520, 123224 / 1000000⟩

/-- The telemetry record of the spec's translation example
(`latitude=37.0, longitude=-122.0, altitude=50.0`). -/
def c1Record : TelemetryRecord := ⟨"demo.JPG".toList, 37, -122, 50, 0, 0, 0, 37 / 10⟩

/-- Three images, two of them with sidecars (the spec's end-to-end scenario). -/
def c5Dir : Dir :=
  [ ⟨"a.JPG".toList, .image⟩, ⟨"a.JSON".toList, .json emptySidecar⟩,
    ⟨"b.JPG".toList, .image⟩, ⟨"c.JPG".toList, .image⟩,
    ⟨"c.JSON".toList, .json emptySidecar⟩ ]

/-- The records `extract_metadata` produces on `c5Dir`. -/
def c5Records : List TelemetryRecord :=
  [ ⟨"a.JPG".toList, 0, 0, 0, 0, 0, 0, 37 / 10⟩,
    ⟨"c.JPG".toList, 0, 0, 0, 0, 0, 0, 37 / 10⟩ ]

def c7Args : PipelineArgs := ⟨"imgs", "out", false, false⟩

/-- Everything exists; only the `mapper` invocation exits non-zero (code 1). -/
def c7Env : PipelineEnv :=
  ⟨[], fun _ => true, fun c => if c.take 2 = [colmap_path, "mapper"] then 1 else 0⟩

/-- Nothing exists on the filesystem; every command would exit 0. -/
def c8Env : PipelineEnv := ⟨[], fun _ => false, fun _ => 0⟩

/-- Upper-case image and sidecar extensions. -/
def c9UpperDir : Dir :=
  [ ⟨"photo.JPG".toList, .image⟩, ⟨"photo.JSON".toList, .json emptySidecar⟩ ]

/-- The same pair with lower-case extensions. -/
def c9LowerDir : Dir :=
  [ ⟨"photo.jpg".toList, .image⟩, ⟨"photo.json".toList, .json emptySidecar⟩ ]

/-- Upper-case image, lower-case sidecar extension. -/
def c9MixedDir : Dir :=
  [ ⟨"photo.JPG".toList, .image⟩, ⟨"photo.json".toList, .json emptySidecar⟩ ]

/-- First sidecar: `FocalLength` 3.7. -/
def c10DocA : SidecarDoc := { emptySidecar with FocalLength := some (.num (37 / 10)) }

/-- Second sidecar: a different `FocalLength`, 5.0. -/
def c10DocB : SidecarDoc := { emptySidecar with FocalLength := some (.num 5) }

/-- Two images whose sidecars disagree on `FocalLength`. -/
def c10Dir : Dir :=
  [ ⟨"a.JPG".toList, .image⟩, ⟨"a.JSON".toList, .json c10DocA⟩,
    ⟨"b.JPG".toList, .image⟩, ⟨"b.JSON".toList, .json c10DocB⟩ ]

def c10RecordA : TelemetryRecord := ⟨"a.JPG".toList, 0, 0, 0, 0, 0, 0, 37 / 10⟩

def c10RecordB : TelemetryRecord := ⟨"b.JPG".toList, 0, 0, 0, 0, 0, 0, 37 / 10⟩

/-- The records `extract_metadata` produces on `c10Dir`: both carry the first
sidecar's focal length. -/
def c10Records : List TelemetryRecord := [c10RecordA, c10RecordB]

/-! ## Lemmas about the numeric-parsing rule -/

theorem splitOnChar_ne_nil (sep : Char) (cs : List Char) : splitOnChar sep cs ≠ [] := by
  induction cs with
  | nil => simp [splitOnChar]
  | cons c cs ih =>
    unfold splitOnChar
    split
    · simp
    · split
      · simp
      · simp

theorem mem_splitOnChar_of_mem {sep c : Char} {cs : List Char}
    (hmem : c ∈ cs) (hne : c ≠ sep) :
    ∃ p ∈ splitOnChar sep cs, c ∈ p := by
  induction cs with
  | nil => simp at hmem
  | cons d cs ih =>
    unfold splitOnChar
    by_cases hd : d = sep
    · rw [if_pos hd]
      rcases List.mem_cons.mp hmem with h | h
      · exact absurd (h.trans hd) hne
      · obtain ⟨p, hp, hcp⟩ := ih h
        exact ⟨p, List.mem_cons_of_mem _ hp, hcp⟩
    · rw [if_neg hd]
      cases hsp : splitOnChar sep cs with
      | nil => exact absurd hsp (splitOnChar_ne_nil sep cs)
      | cons p ps =>
        rcases List.mem_cons.mp hmem with h | h
        · exact ⟨d :: p, List.mem_cons_self _ _, by simp [h]⟩
        · obtain ⟨q, hq, hcq⟩ := ih h
          rw [hsp] at hq
          rcases List.mem_cons.mp hq with rfl | hq'
          · exact ⟨d :: q, List.mem_cons_self _ _, List.mem_cons_of_mem _ hcq⟩
          · exact ⟨q, List.mem_cons_of_mem _ hq', hcq⟩

theorem splitOnChar_of_not_mem {sep : Char} {cs : List Char} (h : sep ∉ cs) :
    splitOnChar sep cs = [cs] := by
  induction cs with
  | nil => rfl
  | cons c cs ih =>
    have hc : ¬ c = sep := fun e => h (by simp [e])
    have hcs : sep ∉ cs := fun e => h (List.mem_cons_of_mem _ e)
    unfold splitOnChar
    rw [if_neg hc, ih hcs]

theorem splitOnChar_append_sep {sep : Char} {a b : List Char} (h : sep ∉ a) :
    splitOnChar sep (a ++ sep :: b) = a :: splitOnChar sep b := by
  induction a with
  | nil => simp [splitOnChar]
  | cons c a ih =>
    have hc : ¬ c = sep := fun e => h (by simp [e])
    have ha : sep ∉ a := fun e => h (List.mem_cons_of_mem _ e)
    show splitOnChar sep (c :: (a ++ sep :: b)) = _
    simp only [splitOnChar]
    rw [if_neg hc, ih ha]

theorem parseDigitsAux_digits {cs : List Char} {acc n : Nat}
    (h : parseDigitsAux cs acc = some n) : ∀ c ∈ cs, c.isDigit = true := by
  induction cs generalizing acc with
  | nil => intro c hc; simp at hc
  | cons d cs ih =>
    intro c hc
    unfold parseDigitsAux at h
    by_cases hd : d.isDigit = true
    · rw [if_pos hd] at h
      rcases List.mem_cons.mp hc with rfl | hc'
      · exact hd
      · exact ih h c hc'
    · rw [if_neg hd] at h
      exact absurd h (by simp)

theorem parseDigits_digits {cs : List Char} {n : Nat}
    (h : parseDigits cs = some n) : ∀ c ∈ cs, c.isDigit = true := by
  cases cs with
  | nil => intro c hc; simp at hc
  | cons d cs => exact parseDigitsAux_digits h

theorem parseDigits0_digits {cs : List Char} {n : Nat}
    (h : parseDigits0 cs = some n) : ∀ c ∈ cs, c.isDigit = true := by
  cases cs with
  | nil => intro c hc; simp at hc
  | cons d cs => exact parseDigitsAux_digits h

theorem parseUnsignedFloat_no_slash {cs : List Char} {q : ℚ}
    (h : parseUnsignedFloat cs = some q) : '/' ∉ cs := by
  intro hmem
  obtain ⟨p, hp, hcp⟩ := @mem_splitOnChar_of_mem '.' '/' cs hmem (by decide)
  cases hsp : splitOnChar '.' cs with
  | nil => exact absurd hsp (splitOnChar_ne_nil _ _)
  | cons ip rest =>
    rw [hsp] at hp
    cases rest with
    | nil =>
      simp only [parseUnsignedFloat, hsp] at h
      simp only [List.mem_singleton] at hp
      have hcp' : '/' ∈ ip := hp ▸ hcp
      cases hpd : parseDigits ip with
      | none => rw [hpd] at h; exact absurd h (by simp)
      | some m => exact absurd (parseDigits_digits hpd '/' hcp') (by decide)
    | cons fp rest2 =>
      cases rest2 with
      | nil =>
        simp only [parseUnsignedFloat, hsp] at h
        by_cases hif : ip = [] ∧ fp = []
        · rw [if_pos hif] at h; exact absurd h (by simp)
        · rw [if_neg hif] at h
          cases hip : parseDigits0 ip with
          | none => rw [hip] at h; exact absurd h (by simp)
          | some m =>
            cases hfp : parseDigits0 fp with
            | none => rw [hip, hfp] at h; exact absurd h (by simp)
            | some f =>
              rcases List.mem_cons.mp hp with rfl | hp'
              · exact absurd (parseDigits0_digits hip '/' hcp) (by decide)
              · simp only [List.mem_singleton] at hp'
                subst hp'
                exact absurd (parseDigits0_digits hfp '/' hcp) (by decide)
      | cons p3 rest3 =>
        simp only [parseUnsignedFloat, hsp] at h
        exact Option.noConfusion h

theorem parsePyFloat_no_slash {cs : List Char} {q : ℚ}
    (h : parsePyFloat cs = some q) : '/' ∉ cs := by
  intro hmem
  cases cs with
  | nil => simp at hmem
  | cons c rest =>
    simp only [parsePyFloat] at h
    by_cases hc : c = '-'
    · rw [if_pos hc] at h
      rcases Option.map_eq_some'.mp h with ⟨q', hq', _⟩
      rcases List.mem_cons.mp hmem with hh | hh
      · rw [hc] at hh; exact absurd hh (by decide)
      · exact absurd hh (parseUnsignedFloat_no_slash hq')
    · rw [if_neg hc] at h
      exact absurd hmem (parseUnsignedFloat_no_slash h)

theorem contains_slash_append (a b : List Char) :
    (a ++ '/' :: b).contains '/' = true := by
  have : '/' ∈ a ++ '/' :: b := List.mem_append_right a (List.mem_cons_self _ _)
  exact List.elem_iff.mpr this

/-- C2: for every numeric field value the numeric-parsing rule gives the same
float whether the value is a plain number or an equivalent `"num/den"`
fraction string: the string containing `/` is split, both halves parsed as
floats and divided, while the plain number parses to itself, so both yield
exactly `n / d`. -/
theorem numeric_fraction_roundtrip (a b : List Char) (n d : ℚ)
    (ha : parsePyFloat a = some n) (hb : parsePyFloat b = some d) (hd : d ≠ 0) :
    parseNumericField (.str (a ++ '/' :: b)) = some (n / d) ∧
    parseNumericField (.num (n / d)) = some (n / d) := by
  refine ⟨?_, rfl⟩
  have hna : '/' ∉ a := parsePyFloat_no_slash ha
  have hnb : '/' ∉ b := parsePyFloat_no_slash hb
  simp only [parseNumericField, contains_slash_append a b, if_true]
  rw [splitOnChar_append_sep hna, splitOnChar_of_not_mem hnb]
  show (match parsePyFloat a, parsePyFloat b with
        | some n, some d => if d = 0 then none else some (n / d)
        | _, _ => none) = some (n / d)
  rw [ha, hb]
  show (if d = 0 then none else some (n / d)) = some (n / d)
  rw [if_neg hd]

/-- C2 witness: `parse("3700/1000")` and `parse(3.7)` both give exactly 3.7. -/
theorem numeric_fraction_roundtrip_witness :
    parseNumericField (.str "3700/1000".toList) = some (37 / 10) ∧
    parseNumericField (.num (37 / 10)) = some (37 / 10) := by
  have h := numeric_fraction_roundtrip "3700".toList "1000".toList 3700 1000
    (by decide) (by decide) (by decide)
  have e1 : "3700/1000".toList = "3700".toList ++ '/' :: "1000".toList := by decide
  have e2 : (3700 : ℚ) / 1000 = 37 / 10 := by decide
  rw [e1]
  rw [e2] at h
  exact h

/-! ## Lemmas about glob matching -/

theorem mem_suffixes {v cs : List Char} : v ∈ suffixes cs ↔ v <:+ cs := by
  induction cs with
  | nil => simp [suffixes]
  | cons c cs ih =>
    simp only [suffixes, List.mem_cons, ih, List.suffix_cons_iff]

theorem globMatch_star {ps cs : List Char} :
    globMatch ('*' :: ps) cs = true ↔ ∃ v, v <:+ cs ∧ globMatch ps v = true := by
  have hgm : globMatch ('*' :: ps) cs = (suffixes cs).any (fun v => globMatch ps v) := by
    simp [globMatch]
  rw [hgm, List.any_eq_true]
  constructor
  · rintro ⟨v, hv, hm⟩
    exact ⟨v, mem_suffixes.mp hv, hm⟩
  · rintro ⟨v, hv, hm⟩
    exact ⟨v, mem_suffixes.mpr hv, hm⟩

theorem globMatch_ends {c : Char} (hc : c ≠ '*') :
    ∀ (ps cs : List Char), globMatch (ps ++ [c]) cs = true → ∃ t, cs = t ++ [c] := by
  intro ps
  induction ps with
  | nil =>
    intro cs h
    cases cs with
    | nil => simp [globMatch, hc] at h
    | cons d cs' =>
      rw [List.nil_append] at h
      simp only [globMatch, if_neg hc] at h
      rw [Bool.and_eq_true] at h
      obtain ⟨h1, h2⟩ := h
      have hd : c = d := beq_iff_eq.mp h1
      have he : cs' = [] := by
        cases cs' with
        | nil => rfl
        | cons e es => simp [globMatch] at h2
      subst hd
      subst he
      exact ⟨[], rfl⟩
  | cons p ps ih =>
    intro cs h
    by_cases hp : p = '*'
    · subst hp
      rw [List.cons_append] at h
      obtain ⟨v, hv, hm⟩ := globMatch_star.mp h
      obtain ⟨t, ht⟩ := ih v hm
      obtain ⟨u, hu⟩ := hv
      exact ⟨u ++ t, by rw [← hu, ht, List.append_assoc]⟩
    · cases cs with
      | nil => rw [List.cons_append] at h; simp [globMatch, hp] at h
      | cons d cs' =>
        rw [List.cons_append] at h
        simp only [globMatch, if_neg hp] at h
        rw [Bool.and_eq_true] at h
        obtain ⟨h1, h2⟩ := h
        obtain ⟨t, ht⟩ := ih cs' h2
        exact ⟨d :: t, by rw [ht]; rfl⟩

theorem globMatch_jpg_upper (s : List Char) :
    globMatch jpgPattern (s ++ ".JPG".toList) = true := by
  rw [show jpgPattern = '*' :: ('.' :: 'J' :: 'P' :: '*' :: 'G' :: []) from rfl]
  exact globMatch_star.mpr ⟨".JPG".toList, ⟨s, rfl⟩, by decide⟩

theorem globMatch_jpeg_upper (s : List Char) :
    globMatch jpgPattern (s ++ ".JPEG".toList) = true := by
  rw [show jpgPattern = '*' :: ('.' :: 'J' :: 'P' :: '*' :: 'G' :: []) from rfl]
  exact globMatch_star.mpr ⟨".JPEG".toList, ⟨s, rfl⟩, by decide⟩

theorem globMatch_jpg_lower (s : List Char) :
    globMatch jpgPattern (s ++ ".jpg".toList) = false := by
  cases h : globMatch jpgPattern (s ++ ".jpg".toList) with
  | false => rfl
  | true =>
    exfalso
    rw [show jpgPattern = ('*' :: '.' :: 'J' :: 'P' :: '*' :: []) ++ ['G'] from rfl] at h
    obtain ⟨t, ht⟩ := globMatch_ends (by decide) _ _ h
    have h1 : (s ++ ".jpg".toList).getLast? = some 'g' := by
      rw [List.getLast?_append]
      rfl
    rw [ht, List.getLast?_concat] at h1
    simp at h1

theorem globMatch_jpeg_lower (s : List Char) :
    globMatch jpgPattern (s ++ ".jpeg".toList) = false := by
  cases h : globMatch jpgPattern (s ++ ".jpeg".toList) with
  | false => rfl
  | true =>
    exfalso
    rw [show jpgPattern = ('*' :: '.' :: 'J' :: 'P' :: '*' :: []) ++ ['G'] from rfl] at h
    obtain ⟨t, ht⟩ := globMatch_ends (by decide) _ _ h
    have h1 : (s ++ ".jpeg".toList).getLast? = some 'g' := by
      rw [List.getLast?_append]
      rfl
    rw [ht, List.getLast?_concat] at h1
    simp at h1

/-- C9 (amended): image discovery matches names against the literal,
case-sensitive pattern `*.JP*G`, so `.JPG`/`.JPEG` names are always matched
and `.jpg`/`.jpeg` names never are, and the probed sidecar path always ends
in the literal `.JSON`; the case tolerance the spec asks for exists only on a
filesystem that itself folds case. -/
theorem discovery_case_sensitive (s : List Char) :
    globMatch jpgPattern (s ++ ".JPG".toList) = true ∧
    globMatch jpgPattern (s ++ ".JPEG".toList) = true ∧
    globMatch jpgPattern (s ++ ".jpg".toList) = false ∧
    globMatch jpgPattern (s ++ ".jpeg".toList) = false ∧
    sidecarName ("photo.jpg".toList) = "photo.JSON".toList :=
  ⟨globMatch_jpg_upper s, globMatch_jpeg_upper s, globMatch_jpg_lower s,
   globMatch_jpeg_lower s, by decide⟩

/-- C9 counterexample: under the code's literal name matching, an upper-case
`photo.JPG`/`photo.JSON` pair yields one telemetry record, while the same
pair with lower-case extensions yields none, and an upper-case image with a
lower-case `.json` sidecar also yields none. -/
theorem discovery_case_counterexample :
    (extract_metadata c9UpperDir).map (fun p => p.2.map TelemetryRecord.image_name) =
      some ["photo.JPG".toList] ∧
    (extract_metadata c9LowerDir).map (fun p => p.2.map TelemetryRecord.image_name) =
      some [] ∧
    (extract_metadata c9MixedDir).map (fun p => p.2.map TelemetryRecord.image_name) =
      some [] := by decide

/-- C4 counterexample: on the empty telemetry set the resolver does succeed,
but the emitted camera's focal length is 3700.0 — not 3.7 — and its principal
point is (2022.872267, 1512.190903) — not (2028, 1520). -/
theorem empty_telemetry_camera_counterexample :
    extract_metadata ([] : Dir) = some (fallbackCamera, []) ∧
    fallbackCamera.focal = 3700 ∧ ¬ fallbackCamera.focal = 37 / 10 ∧
    ¬ (fallbackCamera.cx = 2028 ∧ fallbackCamera.cy = 1520) := by decide

/-- C4 (amended): on the empty telemetry set the resolver still succeeds (no
error), producing the hard-coded defaults width 4056, height 3040, focal
3700.0, principal point (2022.872267, 1512.190903) and k1 0.123224; the
focal 3.7 (= 3700/1000) and principal point (width/2, height/2) =
(2028, 1520) defaults apply when a first record exists but lacks the
corresponding fields. -/
theorem empty_telemetry_camera_defaults :
    extract_metadata ([] : Dir) = some (fallbackCamera, []) ∧
    fallbackCamera =
      ⟨4056, 3040, 3700, 2022872267 / 1000000, 1512190903 / 1000000, 123224 / 1000000⟩ ∧
    resolveCamera (some emptySidecar) = some sampleDefaultCamera ∧
    sampleDefaultCamera = ⟨4056, 3040, 37 / 10, 2028, 1520, 123224 / 1000000⟩ := by
  decide

/-! ## Lemmas about the image list -/

theorem posePairsOK_imageLines :
    ∀ (md : List TelemetryRecord) (idx : ℕ), posePairsOK (imageLines idx md) = true := by
  intro md
  induction md with
  | nil => intro idx; rfl
  | cons r rs ih =>
    intro idx
    simp only [imageLines, posePairsOK, poseOf, Bool.and_eq_true]
    exact ⟨by decide, ih (idx + 1)⟩

/-- C6: every pose line written to the image list carries the identity
rotation quaternion (QW QX QY QZ = 1 0 0 0) and camera_id = 1, whatever the
telemetry's orientation values, and each is followed by a blank line standing
in for the empty 2D-point observation list. -/
theorem image_list_pose_pairs (md : List TelemetryRecord) :
    posePairsOK ((write_colmap_format_images md).drop 3) = true := by
  have e : (write_colmap_format_images md).drop 3 = imageLines 0 md := rfl
  rw [e]
  exact posePairsOK_imageLines md 0

theorem poseLinesOf_imageLines (md : List TelemetryRecord) :
    ∀ (idx i : ℕ),
      (poseLinesOf (imageLines idx md))[i]? = (md[i]?).map (fun r => poseOf (idx + i) r) := by
  induction md with
  | nil => intro idx i; simp [imageLines, poseLinesOf]
  | cons r rs ih =>
    intro idx i
    cases i with
    | zero => simp [imageLines, poseLinesOf, getPoseLine]
    | succ i' =>
      have e1 : poseLinesOf (imageLines idx (r :: rs)) =
          poseOf idx r :: poseLinesOf (imageLines (idx + 1) rs) := rfl
      rw [e1]
      simp only [List.getElem?_cons_succ, ih (idx + 1) i']
      have e2 : idx + 1 + i' = idx + (i' + 1) := by omega
      rw [e2]

/-- C1: the pose approximator emits, for the record at (0-based) index `i`,
translation `(longitude * 111000, latitude * 111000, altitude)` in the `i`-th
pose line of the produced image list. -/
theorem pose_flat_earth_translation (md : List TelemetryRecord) (i : ℕ)
    (r : TelemetryRecord) (h : md[i]? = some r) :
    (poseLinesOf (write_colmap_format_images md))[i]? = some (poseOf i r) ∧
    (poseOf i r).tx = r.longitude * 111000 ∧
    (poseOf i r).ty = r.latitude * 111000 ∧
    (poseOf i r).tz = r.altitude := by
  refine ⟨?_, rfl, rfl, rfl⟩
  have e : poseLinesOf (write_colmap_format_images md) = poseLinesOf (imageLines 0 md) := rfl
  rw [e, poseLinesOf_imageLines md 0 i, h]
  simp

/-- C1 witness: for latitude 37.0, longitude −122.0, altitude 50.0 the
emitted translation is exactly (−13542000.0, 4107000.0, 50.0). -/
theorem pose_flat_earth_translation_witness :
    (poseLinesOf (write_colmap_format_images [c1Record]))[0]? = some (poseOf 0 c1Record) ∧
    (poseOf 0 c1Record).tx = -13542000 ∧
    (poseOf 0 c1Record).ty = 4107000 ∧
    (poseOf 0 c1Record).tz = 50 := by
  have h := pose_flat_earth_translation [c1Record] 0 c1Record (by decide)
  exact ⟨h.1, by decide, by decide, by decide⟩

/-! ## Lemmas about extract_metadata -/

theorem extract_metadata_parts {d : Dir} {cam : CameraParams} {md : List TelemetryRecord}
    (h : extract_metadata d = some (cam, md)) :
    ∃ sample, firstSample d = some sample ∧ resolveCamera sample = some cam ∧
      extractLoop d sample (discoveredImages d) = some md := by
  cases hfs : firstSample d with
  | none =>
    simp only [extract_metadata, hfs] at h
    exact Option.noConfusion h
  | some sample =>
    simp only [extract_metadata, hfs] at h
    cases hrc : resolveCamera sample with
    | none => simp only [hrc] at h; exact Option.noConfusion h
    | some cam' =>
      simp only [hrc] at h
      cases hel : extractLoop d sample (discoveredImages d) with
      | none => simp only [hel] at h; exact Option.noConfusion h
      | some md' =>
        simp only [hel, Option.some.injEq, Prod.mk.injEq] at h
        exact ⟨sample, rfl, by rw [hrc, h.1], by rw [hel, h.2]⟩

theorem resolveCamera_width_height {s : SidecarDoc} {cam : CameraParams}
    (h : resolveCamera (some s) = some cam) :
    some cam.width = pyInt (s.PixelXDimension.getD (.num 4056)) ∧
    some cam.height = pyInt (s.PixelYDimension.getD (.num 3040)) := by
  cases hw : pyInt (s.PixelXDimension.getD (.num 4056)) with
  | none => simp only [resolveCamera, hw] at h; exact Option.noConfusion h
  | some w =>
    simp only [resolveCamera, hw] at h
    cases hh : pyInt (s.PixelYDimension.getD (.num 3040)) with
    | none => simp only [hh] at h; exact Option.noConfusion h
    | some hgt =>
      simp only [hh] at h
      cases hf : parseNumericField (s.FocalLength.getD (.str slashDefault)) with
      | none => simp only [hf] at h; exact Option.noConfusion h
      | some focal =>
        simp only [hf] at h
        cases hcx : pyFloatOf
            ((s.CalibratedOpticalCenter.getD ⟨none, none⟩).X.getD (.num ((w : ℚ) / 2))) with
        | none => simp only [hcx] at h; exact Option.noConfusion h
        | some cx =>
          simp only [hcx] at h
          cases hcy : pyFloatOf
              ((s.CalibratedOpticalCenter.getD ⟨none, none⟩).Y.getD (.num ((hgt : ℚ) / 2))) with
          | none => simp only [hcy] at h; exact Option.noConfusion h
          | some cy =>
            simp only [hcy] at h
            cases hk : parsePyFloat ((splitOnChar ',' (s.DewarpData.getD defaultDewarp)).headD []) with
            | none => simp only [hk] at h; exact Option.noConfusion h
            | some k1 =>
              simp only [hk, Option.some.injEq] at h
              subst h
              exact ⟨rfl, rfl⟩

/-- C3: for every telemetry set the produced camera list contains exactly one
data line after the header comments, and its WIDTH and HEIGHT fields equal
the first-discovered record's values, or the documented defaults 4056 and
3040 when the record lacks them or the set is empty. -/
theorem camera_list_single_line (d : Dir) (sample : Option SidecarDoc)
    (cam : CameraParams) (md : List TelemetryRecord)
    (hs : firstSample d = some sample)
    (h : extract_metadata d = some (cam, md)) :
    (write_colmap_format_cameras cam).countP isCameraData = 1 ∧
    some cam.width = claimedWidth sample ∧
    some cam.height = claimedHeight sample := by
  obtain ⟨sample', hs', hrc, hel⟩ := extract_metadata_parts h
  rw [hs] at hs'
  injection hs' with he
  subst he
  refine ⟨rfl, ?_, ?_⟩
  · cases sample with
    | none =>
      simp only [resolveCamera, Option.some.injEq] at hrc
      rw [← hrc]
      rfl
    | some s =>
      have hw := (resolveCamera_width_height hrc).1
      cases hx : s.PixelXDimension with
      | none =>
        rw [hx, Option.getD_none] at hw
        rw [hw]
        simp only [claimedWidth, hx]
        decide
      | some v =>
        rw [hx, Option.getD_some] at hw
        rw [hw]
        simp only [claimedWidth, hx]
  · cases sample with
    | none =>
      simp only [resolveCamera, Option.some.injEq] at hrc
      rw [← hrc]
      rfl
    | some s =>
      have hh := (resolveCamera_width_height hrc).2
      cases hx : s.PixelYDimension with
      | none =>
        rw [hx, Option.getD_none] at hh
        rw [hh]
        simp only [claimedHeight, hx]
        decide
      | some v =>
        rw [hx, Option.getD_some] at hh
        rw [hh]
        simp only [claimedHeight, hx]

/-- C3 witness: the empty telemetry set gives a camera list with exactly one
data line carrying the default 4056×3040. -/
theorem camera_list_single_line_witness :
    (write_colmap_format_cameras fallbackCamera).countP isCameraData = 1 ∧
    some fallbackCamera.width = claimedWidth none ∧
    some fallbackCamera.height = claimedHeight none :=
  camera_list_single_line [] none fallbackCamera [] (by decide) (by decide)

theorem extractLoop_length {d : Dir} {sample : Option SidecarDoc} :
    ∀ {imgs : List (List Char)} {md : List TelemetryRecord},
      extractLoop d sample imgs = some md →
      md.length = imgs.countP (fun img => (findFile d (sidecarName img)).isSome) := by
  intro imgs
  induction imgs with
  | nil =>
    intro md h
    simp only [extractLoop, Option.some.injEq] at h
    subst h
    simp
  | cons img rest ih =>
    intro md h
    rw [List.countP_cons]
    cases hff : findFile d (sidecarName img) with
    | none =>
      simp only [extractLoop, hff] at h
      simp [hff, ih h]
    | some fc =>
      cases fc with
      | image =>
        simp only [extractLoop, hff] at h
        exact Option.noConfusion h
      | malformed =>
        simp only [extractLoop, hff] at h
        exact Option.noConfusion h
      | json doc =>
        simp only [extractLoop, hff] at h
        cases sample with
        | none => exact Option.noConfusion h
        | some s =>
          cases hrec : extractRecord s img doc with
          | none => simp only [hrec] at h; exact Option.noConfusion h
          | some r =>
            simp only [hrec] at h
            cases hloop : extractLoop d (some s) rest with
            | none => simp only [hloop] at h; exact Option.noConfusion h
            | some rs =>
              simp only [hloop, Option.some.injEq] at h
              subst h
              simp [hff, ih hloop]

theorem imagePoseIds_imageLines :
    ∀ (md : List TelemetryRecord) (idx : ℕ),
      imagePoseIds (imageLines idx md) = List.range' (idx + 1) md.length := by
  intro md
  induction md with
  | nil => intro idx; rfl
  | cons r rs ih =>
    intro idx
    have e : imagePoseIds (imageLines idx (r :: rs)) =
        (idx + 1) :: imagePoseIds (imageLines (idx + 1) rs) := rfl
    rw [e, ih (idx + 1)]
    rfl

/-- C5: for every image directory on which extraction succeeds, the number of
pose entries in the produced image list equals the number of images with an
existing sidecar — not the total image count — and their IMAGE_ID column is
the 1-based consecutive range, in discovery order. -/
theorem image_list_counts_valid_sidecars (d : Dir) (cam : CameraParams)
    (md : List TelemetryRecord) (h : extract_metadata d = some (cam, md)) :
    md.length = validSidecarCount d ∧
    imagePoseIds (write_colmap_format_images md) = List.range' 1 md.length := by
  obtain ⟨sample, hs, hrc, hel⟩ := extract_metadata_parts h
  refine ⟨extractLoop_length hel, ?_⟩
  have e : imagePoseIds (write_colmap_format_images md) =
      imagePoseIds (imageLines 0 md) := rfl
  rw [e, imagePoseIds_imageLines md 0]

/-- C5 witness: three images of which two have sidecars yield exactly two
pose entries with IMAGE_IDs 1 and 2. -/
theorem image_list_counts_valid_sidecars_witness :
    c5Records.length = validSidecarCount c5Dir ∧
    imagePoseIds (write_colmap_format_images c5Records) = List.range' 1 c5Records.length :=
  image_list_counts_valid_sidecars c5Dir sampleDefaultCamera c5Records (by decide)

theorem extractRecord_focal {s : SidecarDoc} {img : List Char} {doc : SidecarDoc}
    {r : TelemetryRecord} (h : extractRecord s img doc = some r) :
    some r.focal_length = parseNumericField (s.FocalLength.getD (.str slashDefault)) := by
  cases h1 : pyFloatOf (doc.Latitude.getD (.num 0)) with
  | none => simp only [extractRecord, h1] at h; exact Option.noConfusion h
  | some lat =>
    simp only [extractRecord, h1] at h
    cases h2 : pyFloatOf (doc.Longitude.getD (.num 0)) with
    | none => simp only [h2] at h; exact Option.noConfusion h
    | some lon =>
      simp only [h2] at h
      cases h3 : pyFloatOf (doc.AbsoluteAltitude.getD (.num 0)) with
      | none => simp only [h3] at h; exact Option.noConfusion h
      | some alt =>
        simp only [h3] at h
        cases h4 : pyFloatOf
            ((doc.CameraOrientationNED.getD ⟨none, none, none⟩).Yaw.getD (.num 0)) with
        | none => simp only [h4] at h; exact Option.noConfusion h
        | some yaw =>
          simp only [h4] at h
          cases h5 : pyFloatOf
              ((doc.CameraOrientationNED.getD ⟨none, none, none⟩).Pitch.getD (.num 0)) with
          | none => simp only [h5] at h; exact Option.noConfusion h
          | some pitch =>
            simp only [h5] at h
            cases h6 : pyFloatOf
                ((doc.CameraOrientationNED.getD ⟨none, none, none⟩).Roll.getD (.num 0)) with
            | none => simp only [h6] at h; exact Option.noConfusion h
            | some roll =>
              simp only [h6] at h
              cases h7 : parseNumericField (s.FocalLength.getD (.str slashDefault)) with
              | none => simp only [h7] at h; exact Option.noConfusion h
              | some focal =>
                simp only [h7, Option.some.injEq] at h
                subst h
                rfl

theorem extractLoop_focal {d : Dir} {s : SidecarDoc} :
    ∀ {imgs : List (List Char)} {md : List TelemetryRecord},
      extractLoop d (some s) imgs = some md →
      ∀ r ∈ md,
        some r.focal_length = parseNumericField (s.FocalLength.getD (.str slashDefault)) := by
  intro imgs
  induction imgs with
  | nil =>
    intro md h r hr
    simp only [extractLoop, Option.some.injEq] at h
    subst h
    simp at hr
  | cons img rest ih =>
    intro md h r hr
    cases hff : findFile d (sidecarName img) with
    | none =>
      simp only [extractLoop, hff] at h
      exact ih h r hr
    | some fc =>
      cases fc with
      | image =>
        simp only [extractLoop, hff] at h
        exact Option.noConfusion h
      | malformed =>
        simp only [extractLoop, hff] at h
        exact Option.noConfusion h
      | json doc =>
        simp only [extractLoop, hff] at h
        cases hrec : extractRecord s img doc with
        | none => simp only [hrec] at h; exact Option.noConfusion h
        | some r' =>
          simp only [hrec] at h
          cases hloop : extractLoop d (some s) rest with
          | none => simp only [hloop] at h; exact Option.noConfusion h
          | some rs =>
            simp only [hloop, Option.some.injEq] at h
            subst h
            rcases List.mem_cons.mp hr with rfl | hr'
            · exact extractRecord_focal hrec
            · exact ih hloop r hr'

/-- C10: every produced record's focal_length is parsed from the
first-discovered sidecar (the sample image), not from that image's own
FocalLength field, so records from sidecars with different FocalLength
values are still identical in focal_length. -/
theorem record_focal_from_sample (d : Dir) (s : SidecarDoc) (cam : CameraParams)
    (md : List TelemetryRecord) (hs : firstSample d = some (some s))
    (h : extract_metadata d = some (cam, md)) (r : TelemetryRecord) (hr : r ∈ md) :
    some r.focal_length = parseNumericField (s.FocalLength.getD (.str slashDefault)) := by
  obtain ⟨sample, hs', hrc, hel⟩ := extract_metadata_parts h
  rw [hs] at hs'
  injection hs' with he
  subst he
  exact extractLoop_focal hel r hr

/-- C10 witness: two sidecars carrying FocalLength 3.7 and 5.0 both produce
records with focal_length 3.7, the first-discovered sidecar's value. -/
theorem record_focal_from_sample_witness :
    some c10RecordA.focal_length =
      parseNumericField (c10DocA.FocalLength.getD (.str slashDefault)) ∧
    some c10RecordB.focal_length =
      parseNumericField (c10DocA.FocalLength.getD (.str slashDefault)) ∧
    c10DocA.FocalLength ≠ c10DocB.FocalLength ∧
    c10RecordA.focal_length = c10RecordB.focal_length :=
  ⟨record_focal_from_sample c10Dir c10DocA sampleDefaultCamera c10Records
      (by decide) (by decide) c10RecordA (by decide),
   record_focal_from_sample c10Dir c10DocA sampleDefaultCamera c10Records
      (by decide) (by decide) c10RecordB (by decide),
   by decide, by decide⟩

/-! ## Lemmas about the pipeline sequencer -/

theorem metadata_step_ok (args : PipelineArgs) (env : PipelineEnv)
    (hmeta : args.use_metadata = false ∨ (extract_metadata env.imagesDir).isSome = true) :
    metadata_step args env = ([], none) ∨
    metadata_step args env =
      ([Effect.writePriorFiles (pjoin args.output "sparse_init")], none) := by
  unfold metadata_step
  by_cases hu : args.use_metadata = true
  · rw [if_pos hu]
    cases hext : extract_metadata env.imagesDir with
    | none =>
      rcases hmeta with hm | hm
      · rw [hu] at hm; exact absurd hm (by simp)
      · rw [hext] at hm; simp at hm
    | some p =>
      cases p with
      | mk cam md =>
        by_cases he : md.isEmpty
        · left; simp [he]
        · right; simp [he]
  · rw [if_neg hu]
    exact Or.inl rfl

theorem metadata_step_benign (args : PipelineArgs) (env : PipelineEnv)
    (hmeta : args.use_metadata = false ∨ (extract_metadata env.imagesDir).isSome = true) :
    ∃ eff0, metadata_step args env = (eff0, none) ∧ stagesOf eff0 = [] ∧
      ∀ c, Effect.runStage c ∉ eff0 := by
  rcases metadata_step_ok args env hmeta with hms | hms
  · exact ⟨[], hms, rfl, by simp⟩
  · exact ⟨[Effect.writePriorFiles (pjoin args.output "sparse_init")], hms, rfl,
      by intro c; simp [stagesOf]⟩

theorem opensplat_ne_feature (args : PipelineArgs) :
    opensplat_cmd args ≠ feature_cmd args := by
  intro h
  have h0 : (opensplat_cmd args).head? = (feature_cmd args).head? := by rw [h]
  have h1 : some opensplat_exe = some colmap_path := h0
  exact absurd (Option.some.inj h1) (by decide)

theorem opensplat_ne_matcher (args : PipelineArgs) :
    opensplat_cmd args ≠ match_cmd args := by
  intro h
  have h0 : (opensplat_cmd args).head? = (match_cmd args).head? := by rw [h]
  have h1 : some opensplat_exe = some colmap_path := h0
  exact absurd (Option.some.inj h1) (by decide)

theorem opensplat_ne_mapper (args : PipelineArgs) (env : PipelineEnv) :
    opensplat_cmd args ≠ mapper_cmd args env := by
  intro h
  have h0 : (opensplat_cmd args).head? = (mapper_cmd args env).head? := by rw [h]
  have h1 : some opensplat_exe = some colmap_path := h0
  exact absurd (Option.some.inj h1) (by decide)

theorem run_main_missing_exe (args : PipelineArgs) (env : PipelineEnv)
    (eff0 : List Effect) (hms : metadata_step args env = (eff0, none))
    (hcol : env.pathExists colmap_path = false) :
    run_colmap_main args env =
      (eff0 ++ [.makeDir args.output],
       some (.missingExecutable
         "Could not find COLMAP executable. Please make sure COLMAP is installed correctly.")) := by
  simp only [run_colmap_main, hms, hcol]
  simp

theorem run_main_feature_fail (args : PipelineArgs) (env : PipelineEnv)
    (eff0 : List Effect) (hms : metadata_step args env = (eff0, none))
    (hcol : env.pathExists colmap_path = true)
    (h0 : env.exitCode (feature_cmd args) ≠ 0) :
    run_colmap_main args env =
      (eff0 ++ [.makeDir args.output] ++ [.runStage (feature_cmd args)],
       some (.stageFailed (feature_cmd args) (env.exitCode (feature_cmd args)))) := by
  simp only [run_colmap_main, hms, hcol]
  simp [h0]

theorem run_main_match_fail (args : PipelineArgs) (env : PipelineEnv)
    (eff0 : List Effect) (hms : metadata_step args env = (eff0, none))
    (hcol : env.pathExists colmap_path = true)
    (h0 : env.exitCode (feature_cmd args) = 0)
    (h1 : env.exitCode (match_cmd args) ≠ 0) :
    run_colmap_main args env =
      (eff0 ++ [.makeDir args.output] ++ [.runStage (feature_cmd args)]
        ++ [.runStage (match_cmd args)],
       some (.stageFailed (match_cmd args) (env.exitCode (match_cmd args)))) := by
  simp only [run_colmap_main, hms, hcol]
  simp [h0, h1]

theorem run_main_mapper_fail (args : PipelineArgs) (env : PipelineEnv)
    (eff0 : List Effect) (hms : metadata_step args env = (eff0, none))
    (hcol : env.pathExists colmap_path = true)
    (h0 : env.exitCode (feature_cmd args) = 0)
    (h1 : env.exitCode (match_cmd args) = 0)
    (h2 : env.exitCode (mapper_cmd args env) ≠ 0) :
    run_colmap_main args env =
      (eff0 ++ [.makeDir args.output] ++ [.runStage (feature_cmd args)]
        ++ [.runStage (match_cmd args)] ++ [.makeDir (pjoin args.output "sparse")]
        ++ [.runStage (mapper_cmd args env)],
       some (.stageFailed (mapper_cmd args env) (env.exitCode (mapper_cmd args env)))) := by
  simp only [run_colmap_main, hms, hcol]
  simp [h0, h1, h2]

theorem stagesOf_append (a b : List Effect) :
    stagesOf (a ++ b) = stagesOf a ++ stagesOf b := by
  simp [stagesOf]

/-- C7: if a required stage's external process exits non-zero (all earlier
required stages succeeding), the sequencer aborts with an error carrying that
exact command and its exit code, exactly the stages up to and including the
failed one have been invoked, and the training stage (OpenSplat) is never
invoked. -/
theorem stage_failure_aborts (args : PipelineArgs) (env : PipelineEnv) (k : Fin 3)
    (hmeta : args.use_metadata = false ∨ (extract_metadata env.imagesDir).isSome = true)
    (hcolmap : env.pathExists colmap_path = true)
    (hpre : ∀ j : Fin 3, j < k → env.exitCode (requiredStageCmd args env j) = 0)
    (hfail : env.exitCode (requiredStageCmd args env k) ≠ 0) :
    (run_colmap_main args env).2 =
      some (.stageFailed (requiredStageCmd args env k)
            (env.exitCode (requiredStageCmd args env k))) ∧
    stagesOf (run_colmap_main args env).1 =
      [feature_cmd args, match_cmd args, mapper_cmd args env].take (k.val + 1) ∧
    Effect.runStage (opensplat_cmd args) ∉ (run_colmap_main args env).1 := by
  obtain ⟨eff0, hms, hse, hnm⟩ := metadata_step_benign args env hmeta
  fin_cases k
  · simp [requiredStageCmd] at hfail ⊢
    rw [run_main_feature_fail args env eff0 hms hcolmap hfail]
    refine ⟨rfl, ?_, ?_⟩
    · rw [stagesOf_append, stagesOf_append, hse]
      rfl
    · simp [List.mem_append, hnm (opensplat_cmd args), opensplat_ne_feature args, stagesOf]
  · have hp0 : env.exitCode (feature_cmd args) = 0 := by
      have := hpre 0 (by decide)
      simpa [requiredStageCmd] using this
    simp [requiredStageCmd] at hfail ⊢
    rw [run_main_match_fail args env eff0 hms hcolmap hp0 hfail]
    refine ⟨rfl, ?_, ?_⟩
    · rw [stagesOf_append, stagesOf_append, stagesOf_append, hse]
      rfl
    · simp [List.mem_append, hnm (opensplat_cmd args), opensplat_ne_feature args,
        opensplat_ne_matcher args, stagesOf]
  · have hp0 : env.exitCode (feature_cmd args) = 0 := by
      have := hpre 0 (by decide)
      simpa [requiredStageCmd] using this
    have hp1 : env.exitCode (match_cmd args) = 0 := by
      have := hpre 1 (by decide)
      simpa [requiredStageCmd] using this
    simp [requiredStageCmd] at hfail ⊢
    rw [run_main_mapper_fail args env eff0 hms hcolmap hp0 hp1 hfail]
    refine ⟨rfl, ?_, ?_⟩
    · rw [stagesOf_append, stagesOf_append, stagesOf_append, stagesOf_append,
        stagesOf_append, hse]
      rfl
    · simp [List.mem_append, hnm (opensplat_cmd args), opensplat_ne_feature args,
        opensplat_ne_matcher args, opensplat_ne_mapper args env, stagesOf]

/-- C7 witness: with every path present and only the mapper exiting 1, the
run aborts with the mapper command and code 1, having invoked exactly the
three engine stages and never OpenSplat. -/
theorem stage_failure_aborts_witness :
    (run_colmap_main c7Args c7Env).2 =
      some (.stageFailed (requiredStageCmd c7Args c7Env 2)
            (c7Env.exitCode (requiredStageCmd c7Args c7Env 2))) ∧
    stagesOf (run_colmap_main c7Args c7Env).1 =
      [feature_cmd c7Args, match_cmd c7Args, mapper_cmd c7Args c7Env].take
        ((2 : Fin 3).val + 1) ∧
    Effect.runStage (opensplat_cmd c7Args) ∉ (run_colmap_main c7Args c7Env).1 :=
  stage_failure_aborts c7Args c7Env 2 (Or.inl rfl) rfl (by decide) (by decide)

/-- C8: if the configured reconstruction-engine executable path does not
exist, the sequencer fails with the missing-executable error and invokes no
stage at all — in particular nothing that writes the database or a sparse
model. -/
theorem missing_executable_aborts (args : PipelineArgs) (env : PipelineEnv)
    (hmeta : args.use_metadata = false ∨ (extract_metadata env.imagesDir).isSome = true)
    (hmiss : env.pathExists colmap_path = false) :
    (run_colmap_main args env).2 =
      some (.missingExecutable
        "Could not find COLMAP executable. Please make sure COLMAP is installed correctly.") ∧
    stagesOf (run_colmap_main args env).1 = [] := by
  obtain ⟨eff0, hms, hse, hnm⟩ := metadata_step_benign args env hmeta
  rw [run_main_missing_exe args env eff0 hms hmiss]
  refine ⟨rfl, ?_⟩
  rw [stagesOf_append, hse]
  rfl

/-- C8 witness: with no executable on the filesystem the run aborts with the
missing-executable message and an empty stage trace. -/
theorem missing_executable_aborts_witness :
    (run_colmap_main c7Args c8Env).2 =
      some (.missingExecutable
        "Could not find COLMAP executable. Please make sure COLMAP is installed correctly.") ∧
    stagesOf (run_colmap_main c7Args c8Env).1 = [] :=
  missing_executable_aborts c7Args c8Env (Or.inl rfl) rfl
